import Mathlib

/-!
Verification of the FacilityFlow MVP issue-lifecycle and activity-log engine.

The definitions below are a shallow embedding of the local-mode engine in
src/components/FacilityFlowMVP.tsx (second document in the file, the one the
claims cite by line number) together with the activity windowing of
supaFetchIssues from the first document.  Timestamps are modelled as natural
numbers (milliseconds); each `new Date()` call in the source is modelled as an
explicit time parameter, passed in the order the source performs the reads.
-/

namespace FacilityFlow

/-- Issue status, source type `'open' | 'in_progress' | 'closed'`.
`open` is a Lean keyword, so the first constructor carries an underscore. -/
inductive Status where
  | open_
  | in_progress
  | closed
deriving DecidableEq, Repr

/-- Priority, source type `'urgent' | 'normal' | 'low'`. -/
inductive Priority where
  | urgent
  | normal
  | low
deriving DecidableEq, Repr

/-- Activity action tag, source type
`'created' | 'assigned' | 'status_changed' | 'work_started' | 'work_completed'`. -/
inductive Action where
  | created
  | assigned
  | status_changed
  | work_started
  | work_completed
deriving DecidableEq, Repr

/-- Technician record, source `interface Technician` (id: number in the local
engine). -/
structure Technician where
  id : Nat
  name : String
  dept : String
deriving DecidableEq, Repr

/-- Activity entry, source `interface ActivityEntry`.  The source field `at`
is a Lean keyword, hence `at'`. -/
structure ActivityEntry where
  at' : Nat
  actor : String
  action : Action
  details : Option String
deriving DecidableEq, Repr

/-- Local user, source `interface UserType` (role is a plain string there). -/
structure LocalUser where
  name : String
  role : String
  phone : String
  email : String
deriving DecidableEq, Repr

/-- Issue record, source `interface Issue`. -/
structure Issue where
  id : Nat
  title : String
  description : String
  area : String
  department : String
  priority : Priority
  status : Status
  createdAt : Nat
  targetAt : Nat
  createdBy : String
  assignedTechnician : Option Technician
  startedAt : Option Nat
  resolvedAt : Option Nat
  activityLog : List ActivityEntry
deriving DecidableEq, Repr

/-- New-issue form, source `interface NewIssueForm`; `assignedTechId` is
`number | ''` there, the empty string (falsy) is modelled as `none`. -/
structure NewIssueForm where
  title : String
  description : String
  area : String
  department : String
  priority : Priority
  assignedTechId : Option Nat
deriving DecidableEq, Repr

/-- The fixed 12-role set, source constant `roles`. -/
def rolesList : List String :=
  ["Operations Management", "Kitchen team", "Customer service team",
   "Marketing team", "Procurement team", "Facility team", "Finance team",
   "IT team", "Cleaning team", "Technicians", "Packaging team",
   "Logistics team"]

/-- Mock technician pool, source constant `technicians`. -/
def technicians : List Technician :=
  [⟨1, "Mike Johnson", "Facilities"⟩,
   ⟨2, "Sarah Chen", "IT"⟩,
   ⟨3, "David Lopez", "Kitchen"⟩,
   ⟨4, "Anna Kim", "Operations"⟩]

/-! ### Qatar phone helpers (source `isQatarMobile`, `normalizeQatarMobile`) -/

/-- The character class matched by the ECMAScript regex `\s`: tab, line
feed, vertical tab, form feed, carriage return, space, no-break space,
Ogham space mark, the en-quad .. hair-space range U+2000-U+200A, line
separator, paragraph separator, narrow no-break space, medium mathematical
space, ideographic space, and the byte-order mark. -/
def jsWhitespaceChars : List Char :=
  [Char.ofNat 0x09, Char.ofNat 0x0A, Char.ofNat 0x0B, Char.ofNat 0x0C,
   Char.ofNat 0x0D, Char.ofNat 0x20, Char.ofNat 0xA0, Char.ofNat 0x1680,
   Char.ofNat 0x2000, Char.ofNat 0x2001, Char.ofNat 0x2002, Char.ofNat 0x2003,
   Char.ofNat 0x2004, Char.ofNat 0x2005, Char.ofNat 0x2006, Char.ofNat 0x2007,
   Char.ofNat 0x2008, Char.ofNat 0x2009, Char.ofNat 0x200A, Char.ofNat 0x2028,
   Char.ofNat 0x2029, Char.ofNat 0x202F, Char.ofNat 0x205F, Char.ofNat 0x3000,
   Char.ofNat 0xFEFF]

/-- JavaScript regex `\s`: membership in the ECMAScript whitespace class. -/
def jsWhitespace (c : Char) : Bool :=
  jsWhitespaceChars.contains c

/-- The source replace that deletes every whitespace character and every
dash from the raw input. -/
def stripWsDash (l : List Char) : List Char :=
  l.filter (fun c => !(jsWhitespace c || c = '-'))

/-- Exactly eight decimal digits, regex `^\d{8}$`. -/
def qatar8 (l : List Char) : Bool :=
  l.length == 8 && l.all (fun c => c.isDigit)

/-- Regex `^974\d{8}$`. -/
def core974 (l : List Char) : Bool :=
  l.take 3 == ['9', '7', '4'] && qatar8 (l.drop 3)

/-- Regex `^\+?974\d{8}$`: an optional leading plus, then `974` and eight
digits. -/
def plus974 (l : List Char) : Bool :=
  if l.take 1 == ['+'] then core974 (l.drop 1) else core974 l

/-- Source `isQatarMobile`: strip spaces and dashes, then test the two
accepted shapes. -/
def isQatarMobile (raw : String) : Bool :=
  plus974 (stripWsDash raw.toList) || qatar8 (stripWsDash raw.toList)

/-- The source replace that deletes every non-digit character from the raw
input. -/
def digitsOf (l : List Char) : List Char :=
  l.filter (fun c => c.isDigit)

/-- Source `normalizeQatarMobile`: keep the digits, then prefix a plus,
inserting `974` for a bare 8-digit local number. -/
def normalizeQatarMobile (raw : String) : String :=
  let d := digitsOf raw.toList
  if d.take 3 = ['9', '7', '4'] ∧ d.length = 11 then String.mk ('+' :: d)
  else if d.length = 8 then String.mk ('+' :: '9' :: '7' :: '4' :: d)
  else String.mk ('+' :: d)

/-! ### Permission helpers -/

/-- Source `canStartWorkPure`: Operations Management always, Technicians only
when the current user name equals the assignee name (both optional, and
JavaScript `undefined === undefined` is true, as for `none = none` here). -/
def canStartWorkPure (role : String) (currentName assignedName : Option String) : Bool :=
  role == "Operations Management" ||
  (role == "Technicians" && currentName == assignedName)

/-- Source `canAssignPure`. -/
def canAssignPure (role : String) : Bool :=
  role == "Operations Management" || role == "Technicians"

/-- Source component-level `canStartWork(issue)`: false when logged out,
true for Operations Management, assignee-name equality for Technicians,
false for every other role. -/
def canStartWork (currentUser : Option LocalUser) (i : Issue) : Bool :=
  match currentUser with
  | none => false
  | some user =>
    if user.role = "Operations Management" then true
    else if user.role = "Technicians" then
      (i.assignedTechnician.map Technician.name) == some user.name
    else false

/-- Source `canAssign` memo: `!!currentUser && canAssignPure(currentUser.role)`. -/
def canAssignB (currentUser : Option LocalUser) : Bool :=
  match currentUser with
  | none => false
  | some user => canAssignPure user.role

/-! ### Duration formatting (source `formatDuration`) -/

/-- JavaScript `Array.prototype.join(' ')`. -/
def joinSpace : List String → String
  | [] => ""
  | [x] => x
  | x :: y :: xs => x ++ " " ++ joinSpace (y :: xs)

/-- Source `formatDuration` over integer milliseconds.  Every integer is
finite, so the `!isFinite(ms)` disjunct of the guard is vacuous here. -/
def formatDuration (ms : Int) : String :=
  if ms ≤ 0 then "0m"
  else
    let totalMinutes := (ms / 60000).toNat
    let days := totalMinutes / (60 * 24)
    let hours := (totalMinutes % (60 * 24)) / 60
    let minutes := totalMinutes % 60
    let parts : List String :=
      (if days ≠ 0 then [toString days ++ "d"] else []) ++
      (if hours ≠ 0 then [toString hours ++ "h"] else [])
    let parts :=
      if minutes ≠ 0 ∨ parts = [] then parts ++ [toString minutes ++ "m"]
      else parts
    joinSpace parts

/-! ### Engine operations (local mode) -/

/-- Status string as interpolated into the status_changed details. -/
def statusLabel : Status → String
  | Status.open_ => "open"
  | Status.in_progress => "in_progress"
  | Status.closed => "closed"

/-- Source `currentUser?.name || 'System'` (an empty name is falsy). -/
def actorName (currentUser : Option LocalUser) : String :=
  match currentUser with
  | none => "System"
  | some user => if user.name = "" then "System" else user.name

/-- Helper to build a pushed log entry: every push in the source supplies
details. -/
def mkEntry (t : Nat) (actor : String) (a : Action) (d : String) : ActivityEntry :=
  ⟨t, actor, a, some d⟩

/-- Source `autoAssignTechnician`: the first technician whose `dept` matches
the department, else null. -/
def autoAssignTechnician (department : String) : Option Technician :=
  technicians.find? (fun tech => tech.dept == department)

/-- Source `handleSubmitIssue`, the part that validates the form and builds
the new issue.  `t` is the `createdAt` clock read, `tNow` the separate
`Date.now()` read used for `targetAt`; `issuesLen` is `issues.length`.
The source silently returns when a required field is empty or no user is
logged in, modelled as `none`. -/
def handleSubmitIssue (form : NewIssueForm) (currentUser : Option LocalUser)
    (issuesLen : Nat) (t tNow : Nat) : Option Issue :=
  match currentUser with
  | none => none
  | some user =>
    if form.title = "" ∨ form.description = "" ∨ form.area = "" ∨
        form.department = "" then none
    else
      let explicit : Option Technician :=
        match form.assignedTechId with
        | none => none
        | some tid => technicians.find? (fun tech => tech.id == tid)
      let assigned : Option Technician :=
        match explicit with
        | some tech => some tech
        | none => autoAssignTechnician form.department
      let baseLog : List ActivityEntry :=
        mkEntry t user.name Action.created "Issue created" ::
        (match assigned with
         | some tech =>
           [mkEntry t user.name Action.assigned ("Initial assignee: " ++ tech.name)]
         | none => [])
      some
        { id := issuesLen + 1
          title := form.title
          description := form.description
          area := form.area
          department := form.department
          priority := form.priority
          status := Status.open_
          createdAt := t
          targetAt := tNow + 72 * 60 * 60 * 1000
          createdBy := user.name
          assignedTechnician := assigned
          startedAt := none
          resolvedAt := none
          activityLog := baseLog }

/-- Source `setIssues([issue, ...issues])` composed with the validation:
the issues list after a submit attempt. -/
def submitIssueList (form : NewIssueForm) (currentUser : Option LocalUser)
    (issues : List Issue) (t tNow : Nat) : List Issue :=
  match handleSubmitIssue form currentUser issues.length t tNow with
  | none => issues
  | some i => i :: issues

/-- Source `i.assignedTechnician?.name || 'Unassigned'` (an empty name is
falsy in JavaScript). -/
def assigneeNameOr (o : Option Technician) : String :=
  match o with
  | none => "Unassigned"
  | some tech => if tech.name = "" then "Unassigned" else tech.name

/-- Source `assignIssue`, the transform applied to the matching issue:
resolve the technician id (an unknown or empty id yields null, i.e.
unassignment), record one `assigned` entry, never touch status or the
timestamps.  `t` is the single clock read of the call. -/
def assignIssueOn (actor : String) (techId : Option Nat) (t : Nat) (i : Issue) : Issue :=
  let tech : Option Technician :=
    match techId with
    | none => none
    | some n => technicians.find? (fun x => x.id == n)
  let details :=
    "Assignee changed: " ++ assigneeNameOr i.assignedTechnician ++ " → " ++
      assigneeNameOr tech
  { i with
    assignedTechnician := tech
    activityLog := i.activityLog ++ [mkEntry t actor Action.assigned details] }

/-- Source `updateIssueStatus`, the transform applied to the matching issue.
The source reads the clock once per timestamp it produces, in program order:
`t1` is the read that sets `startedAt` (only taken when it was unset), `t2`
the read that sets `resolvedAt` (only on close), `t3` the read stamped on the
final `status_changed` entry.  The four cases below are exactly the paths of
the two `if` blocks of the source. -/
def updateIssueStatusOn (actor : String) (newStatus : Status)
    (t1 t2 t3 : Nat) (i : Issue) : Issue :=
  let sc := mkEntry t3 actor Action.status_changed ("Status → " ++ statusLabel newStatus)
  match newStatus, i.startedAt with
  | Status.in_progress, none =>
    { i with
      status := newStatus
      startedAt := some t1
      activityLog := i.activityLog ++
        [mkEntry t1 actor Action.work_started "Started work", sc] }
  | Status.closed, none =>
    { i with
      status := newStatus
      startedAt := some t1
      resolvedAt := some t2
      activityLog := i.activityLog ++
        [mkEntry t1 actor Action.work_started "Auto-start on close",
         mkEntry t2 actor Action.work_completed "Marked complete", sc] }
  | Status.closed, some s =>
    { i with
      status := newStatus
      startedAt := some s
      resolvedAt := some t2
      activityLog := i.activityLog ++
        [mkEntry t2 actor Action.work_completed "Marked complete", sc] }
  | _, _ =>
    { i with
      status := newStatus
      activityLog := i.activityLog ++ [sc] }

/-! ### UI-dispatched actions

The issue views render the Start Work button only under
`issue.status !== 'closed'`, `issue.status === 'open'` and
`canStartWork(issue)`, and the Mark Complete button only under
`issue.status !== 'closed'` and `issue.status === 'in_progress'` (no
role or assignment check); the assignment select only under
`issue.status !== 'closed'` and `canAssign`.  The actions below compose
those render guards with the button handlers, which call
`updateIssueStatus` and `assignIssue`. -/

/-- Render condition of the Start Work button. -/
def startWorkOffered (currentUser : Option LocalUser) (i : Issue) : Bool :=
  (i.status == Status.open_) && canStartWork currentUser i

/-- Render condition of the Mark Complete button: status alone, actor
independent. -/
def closeOffered (i : Issue) : Bool :=
  i.status == Status.in_progress

/-- Render condition of the assignment select. -/
def assignOffered (currentUser : Option LocalUser) (i : Issue) : Bool :=
  !(i.status == Status.closed) && canAssignB currentUser

/-- The Start Work action as invokable through the program: `none` when the
button is not offered. -/
def startWorkAction (currentUser : Option LocalUser) (t1 t2 t3 : Nat)
    (i : Issue) : Option Issue :=
  if startWorkOffered currentUser i then
    some (updateIssueStatusOn (actorName currentUser) Status.in_progress t1 t2 t3 i)
  else none

/-- The Mark Complete action as invokable through the program. -/
def closeAction (currentUser : Option LocalUser) (t1 t2 t3 : Nat)
    (i : Issue) : Option Issue :=
  if closeOffered i then
    some (updateIssueStatusOn (actorName currentUser) Status.closed t1 t2 t3 i)
  else none

/-- The assignment action as invokable through the program. -/
def assignAction (currentUser : Option LocalUser) (techId : Option Nat)
    (t : Nat) (i : Issue) : Option Issue :=
  if assignOffered currentUser i then
    some (assignIssueOn (actorName currentUser) techId t i)
  else none

/-! ### Reachability -/

/-- Forward order on statuses. -/
def statusRank : Status → Nat
  | Status.open_ => 0
  | Status.in_progress => 1
  | Status.closed => 2

/-- One engine step on a pair of an issue and the instant of its latest
clock read.  Each constructor is one UI action; the time hypotheses say only
that the wall clock never goes backwards between and within invocations. -/
inductive EngineStep : Issue × Nat → Issue × Nat → Prop where
  | assign : ∀ (u : Option LocalUser) (techId : Option Nat) (i r : Issue) (t t' : Nat),
      t ≤ t' → assignAction u techId t' i = some r →
      EngineStep (i, t) (r, t')
  | start : ∀ (u : Option LocalUser) (i r : Issue) (t t1 t2 t3 : Nat),
      t ≤ t1 → t1 ≤ t2 → t2 ≤ t3 → startWorkAction u t1 t2 t3 i = some r →
      EngineStep (i, t) (r, t3)
  | close : ∀ (u : Option LocalUser) (i r : Issue) (t t1 t2 t3 : Nat),
      t ≤ t1 → t1 ≤ t2 → t2 ≤ t3 → closeAction u t1 t2 t3 i = some r →
      EngineStep (i, t) (r, t3)

/-- Issues reachable from a freshly created issue by engine steps. -/
inductive EngineReach : Issue × Nat → Prop where
  | created : ∀ (form : NewIssueForm) (u : Option LocalUser)
      (issuesLen t tNow : Nat) (i : Issue),
      handleSubmitIssue form u issuesLen t tNow = some i →
      EngineReach (i, t)
  | step : ∀ (s s' : Issue × Nat), EngineReach s → EngineStep s s' → EngineReach s'

/-! ### Activity windowing (source `supaFetchIssues` and `renderIssueList`) -/

/-- Source `actsByIssue[+k].slice(0, 3).reverse()`: the activity rows arrive
newest-first, the three most recent are kept and reversed to chronological
order. -/
def summaryWindow (acts : List ActivityEntry) : List ActivityEntry :=
  (acts.take 3).reverse

/-- Number of entries of a list carrying a given action tag. -/
def countAction (a : Action) (l : List ActivityEntry) : Nat :=
  (l.filter (fun e => e.action == a)).length

/-! ### Concrete fixtures used by counterexamples and witnesses -/

/-- An in-progress issue assigned to the technician Sarah Chen. -/
def c1Issue : Issue :=
  { id := 10, title := "WiFi down in Admin Offices"
    description := "Complete network outage in the admin wing."
    area := "Admin Offices", department := "IT", priority := Priority.urgent
    status := Status.in_progress, createdAt := 0, targetAt := 259200000
    createdBy := "Jane Smith"
    assignedTechnician := some ⟨2, "Sarah Chen", "IT"⟩
    startedAt := some 50, resolvedAt := none
    activityLog := [mkEntry 0 "Jane Smith" Action.created "Issue created"] }

/-- A Technician who is not the assignee of `c1Issue`. -/
def c1Bob : LocalUser :=
  { name := "Bob", role := "Technicians", phone := "+97455555555"
    email := "bob@dieture.com" }

/-- A closed issue with both timestamps set. -/
def c2Issue : Issue :=
  { id := 11, title := "Broken coffee machine", description := "Not turning on."
    area := "Reception", department := "Facilities", priority := Priority.normal
    status := Status.closed, createdAt := 0, targetAt := 259200000
    createdBy := "John Doe", assignedTechnician := none
    startedAt := some 10, resolvedAt := some 20
    activityLog := [mkEntry 0 "John Doe" Action.created "Issue created"] }

/-- A valid creation form with no assignee supplied, for a department that
has a default technician. -/
def c5Form : NewIssueForm :=
  { title := "Broken AC", description := "AC not cooling", area := "Reception"
    department := "Facilities", priority := Priority.normal
    assignedTechId := none }

/-- The creating user of the C5 scenarios. -/
def c5John : LocalUser :=
  { name := "John Doe", role := "Kitchen team", phone := "+97455555555"
    email := "john@dieture.com" }

/-- A valid creation form with no assignee supplied, for a department with
no default technician. -/
def c5wForm : NewIssueForm :=
  { title := "Leak", description := "Water leak", area := "Reception"
    department := "Hygiene and Safety", priority := Priority.normal
    assignedTechId := none }

/-- The issue produced by submitting `c5wForm` as `c5John` at time 100. -/
def c5wIssue : Issue :=
  { id := 1, title := "Leak", description := "Water leak", area := "Reception"
    department := "Hygiene and Safety", priority := Priority.normal
    status := Status.open_, createdAt := 100, targetAt := 200 + 72 * 60 * 60 * 1000
    createdBy := "John Doe", assignedTechnician := none
    startedAt := none, resolvedAt := none
    activityLog := [mkEntry 100 "John Doe" Action.created "Issue created"] }

/-- An open issue whose work was never started. -/
def c6Issue : Issue :=
  { id := 12, title := "Flickering light", description := "Ceiling light flickers."
    area := "Studio", department := "Facilities", priority := Priority.low
    status := Status.open_, createdAt := 0, targetAt := 259200000
    createdBy := "John Doe", assignedTechnician := none
    startedAt := none, resolvedAt := none
    activityLog := [mkEntry 0 "John Doe" Action.created "Issue created"] }

/-- Two activity rows, newest first. -/
def c9Acts2 : List ActivityEntry :=
  [mkEntry 30 "A" Action.assigned "x", mkEntry 10 "A" Action.created "y"]

/-- Five activity rows, newest first. -/
def c9Acts5 : List ActivityEntry :=
  [mkEntry 50 "A" Action.status_changed "a", mkEntry 40 "A" Action.work_completed "b",
   mkEntry 30 "A" Action.work_started "c", mkEntry 20 "A" Action.assigned "d",
   mkEntry 10 "A" Action.created "e"]

/-- An Operations Management user. -/
def c3Ops : LocalUser :=
  { name := "Ops", role := "Operations Management", phone := "+97455555551"
    email := "ops@dieture.com" }

/-- The timed lifecycle invariant: an open issue has no timestamps, an
in-progress issue has a start no later than the latest clock read and no
resolution, a closed issue has a start, a resolution no earlier than the
start, and both no later than the latest clock read. -/
def TimedInv (i : Issue) (t : Nat) : Prop :=
  (i.status = Status.open_ → i.startedAt = none ∧ i.resolvedAt = none) ∧
  (i.status = Status.in_progress →
    (∃ s, i.startedAt = some s ∧ s ≤ t) ∧ i.resolvedAt = none) ∧
  (i.status = Status.closed →
    ∃ s r, i.startedAt = some s ∧ i.resolvedAt = some r ∧ s ≤ r ∧ r ≤ t)

/-! ## Theorems -/

/-- A string of positive length is not the empty string. -/
theorem ne_empty_of_length_pos {s : String} (h : 0 < s.length) : s ≠ "" := by
  intro he
  rw [he] at h
  simp at h

/-- `joinSpace` of a non-empty list of non-empty strings has positive
length. -/
theorem joinSpace_length_pos :
    ∀ l : List String, l ≠ [] → (∀ x ∈ l, 0 < x.length) → 0 < (joinSpace l).length
  | [], h, _ => absurd rfl h
  | [x], _, hx => by simpa [joinSpace] using hx x (by simp)
  | x :: y :: xs, _, _ => by
    have hls : (" " : String).length = 1 := rfl
    simp only [joinSpace, String.length_append, hls]
    omega

/-- C8: `formatDuration` maps 0, 59999, 60000, 3600000 and 90000000 ms to
"0m", "0m", "1m", "1h" and "1d 1h"; it returns "0m" on every non-positive
integer input (all integers are finite, so the non-finite guard of the
source is vacuous here) and a non-empty string on every positive input. -/
theorem c8_formatDuration :
    (formatDuration 0 = "0m" ∧ formatDuration 59999 = "0m" ∧
     formatDuration 60000 = "1m" ∧ formatDuration 3600000 = "1h" ∧
     formatDuration 90000000 = "1d 1h") ∧
    (∀ ms : Int, ms ≤ 0 → formatDuration ms = "0m") ∧
    (∀ ms : Int, 0 < ms → formatDuration ms ≠ "") := by
  refine ⟨⟨rfl, rfl, rfl, rfl, rfl⟩, ?_, ?_⟩
  · intro ms hms
    unfold formatDuration
    rw [if_pos hms]
  · intro ms hms
    unfold formatDuration
    rw [if_neg (show ¬ms ≤ 0 by omega)]
    have hld : ("d" : String).length = 1 := rfl
    have hlh : ("h" : String).length = 1 := rfl
    have hlm : ("m" : String).length = 1 := rfl
    have hls : (" " : String).length = 1 := rfl
    by_cases hd : (ms / 60000).toNat / (60 * 24) = 0 <;>
      by_cases hh : (ms / 60000).toNat % (60 * 24) / 60 = 0 <;>
      by_cases hm : (ms / 60000).toNat % 60 = 0 <;>
      · apply ne_empty_of_length_pos
        simp [hd, hh, hm, joinSpace, String.length_append, hld, hlh, hlm, hls]

/-- C8 witness: the quantified parts of `c8_formatDuration` evaluated at
concrete inputs. -/
theorem c8_formatDuration_witness :
    formatDuration (-5) = "0m" ∧ formatDuration 120000 ≠ "" :=
  ⟨c8_formatDuration.2.1 (-5) (by decide), c8_formatDuration.2.2 120000 (by decide)⟩

/-- C7: when any required field (title, description, area, department) is
empty, the creation operation rejects the request: no issue is produced and
the issues list is unchanged.  The source rejects silently (early return);
the rejection is modelled as `none`. -/
theorem c7_create_validation :
    ∀ (form : NewIssueForm) (u : Option LocalUser) (issues : List Issue) (t tNow : Nat),
      form.title = "" ∨ form.description = "" ∨ form.area = "" ∨ form.department = "" →
      handleSubmitIssue form u issues.length t tNow = none ∧
      submitIssueList form u issues t tNow = issues := by
  intro form u issues t tNow h
  have h1 : handleSubmitIssue form u issues.length t tNow = none := by
    cases u with
    | none => rfl
    | some user =>
      simp only [handleSubmitIssue]
      rw [if_pos h]
  refine ⟨h1, ?_⟩
  unfold submitIssueList
  rw [h1]

/-- C7 witness: a concrete form with an empty title is rejected and leaves a
concrete issues list unchanged. -/
theorem c7_create_validation_witness :
    handleSubmitIssue ⟨"", "d", "a", "Facilities", Priority.normal, none⟩
        (some c5John) [c1Issue].length 7 7 = none ∧
    submitIssueList ⟨"", "d", "a", "Facilities", Priority.normal, none⟩
        (some c5John) [c1Issue] 7 7 = [c1Issue] :=
  c7_create_validation ⟨"", "d", "a", "Facilities", Priority.normal, none⟩
    (some c5John) [c1Issue] 7 7 (Or.inl rfl)

/-- C4: closing a non-closed issue appends, in this order, one auto-start
`work_started` entry exactly when `startedAt` was unset, then one
`work_completed` entry ("Marked complete") and one `status_changed` entry
("Status → closed"); the appended segment carries exactly those action
counts. -/
theorem c4_close_entries :
    ∀ (i : Issue) (actor : String) (t1 t2 t3 : Nat), i.status ≠ Status.closed →
      ((updateIssueStatusOn actor Status.closed t1 t2 t3 i).activityLog.drop
          i.activityLog.length =
        (match i.startedAt with
         | none => [mkEntry t1 actor Action.work_started "Auto-start on close"]
         | some _ => []) ++
        [mkEntry t2 actor Action.work_completed "Marked complete",
         mkEntry t3 actor Action.status_changed "Status → closed"]) ∧
      countAction Action.work_started
        ((updateIssueStatusOn actor Status.closed t1 t2 t3 i).activityLog.drop
          i.activityLog.length) =
        (match i.startedAt with | none => 1 | some _ => 0) ∧
      countAction Action.work_completed
        ((updateIssueStatusOn actor Status.closed t1 t2 t3 i).activityLog.drop
          i.activityLog.length) = 1 ∧
      countAction Action.status_changed
        ((updateIssueStatusOn actor Status.closed t1 t2 t3 i).activityLog.drop
          i.activityLog.length) = 1 := by
  intro i actor t1 t2 t3 _
  cases hs : i.startedAt with
  | none =>
    simp [updateIssueStatusOn, hs, statusLabel, mkEntry, List.drop_left, countAction]
  | some s =>
    simp [updateIssueStatusOn, hs, statusLabel, mkEntry, List.drop_left, countAction]

/-- C4 witness: closing the never-started open issue `c6Issue` appends the
three entries; closing the started issue `c1Issue` appends only two. -/
theorem c4_close_entries_witness :
    ((updateIssueStatusOn "Ops" Status.closed 5 5 5 c6Issue).activityLog.drop
        c6Issue.activityLog.length =
      [mkEntry 5 "Ops" Action.work_started "Auto-start on close",
       mkEntry 5 "Ops" Action.work_completed "Marked complete",
       mkEntry 5 "Ops" Action.status_changed "Status → closed"]) ∧
    countAction Action.work_started
      ((updateIssueStatusOn "Ops" Status.closed 5 5 5 c1Issue).activityLog.drop
        c1Issue.activityLog.length) = 0 :=
  ⟨(c4_close_entries c6Issue "Ops" 5 5 5 (by decide)).1,
   (c4_close_entries c1Issue "Ops" 5 5 5 (by decide)).2.1⟩

/-- C2 counterexample: the status-update operation with target in_progress,
invoked on the closed issue `c2Issue`, does not fail and does not leave the
issue unchanged: it sets the status to in_progress and appends a
status_changed entry. -/
theorem c2_counterexample :
    (updateIssueStatusOn "Eve" Status.in_progress 5 6 7 c2Issue).status =
      Status.in_progress ∧
    (updateIssueStatusOn "Eve" Status.in_progress 5 6 7 c2Issue).activityLog.length =
      c2Issue.activityLog.length + 1 := by
  constructor
  · rfl
  · rfl

/-- C2 amended: `updateIssueStatus` performs no status-precondition check —
with target in_progress it always applies the transition, appending a
work_started entry exactly when `startedAt` was unset plus one
status_changed entry; the status precondition lives in the UI gate: the
Start Work action yields no update on a non-open issue and succeeds only on
an open one. -/
theorem c2_amended :
    (∀ (i : Issue) (actor : String) (t1 t2 t3 : Nat),
      (updateIssueStatusOn actor Status.in_progress t1 t2 t3 i).status =
        Status.in_progress ∧
      (updateIssueStatusOn actor Status.in_progress t1 t2 t3 i).activityLog =
        i.activityLog ++
        (match i.startedAt with
         | none => [mkEntry t1 actor Action.work_started "Started work"]
         | some _ => []) ++
        [mkEntry t3 actor Action.status_changed "Status → in_progress"]) ∧
    (∀ (u : Option LocalUser) (i : Issue) (t1 t2 t3 : Nat),
      i.status ≠ Status.open_ → startWorkAction u t1 t2 t3 i = none) ∧
    (∀ (u : Option LocalUser) (i : Issue) (t1 t2 t3 : Nat) (r : Issue),
      startWorkAction u t1 t2 t3 i = some r → i.status = Status.open_) := by
  refine ⟨?_, ?_, ?_⟩
  · intro i actor t1 t2 t3
    cases hs : i.startedAt with
    | none => simp [updateIssueStatusOn, hs, statusLabel, mkEntry]
    | some s => simp [updateIssueStatusOn, hs, statusLabel, mkEntry]
  · intro u i t1 t2 t3 h
    simp [startWorkAction, startWorkOffered, beq_iff_eq, h]
  · intro u i t1 t2 t3 r h
    unfold startWorkAction at h
    split at h
    · rename_i hoff
      unfold startWorkOffered at hoff
      have := (Bool.and_eq_true _ _).mp hoff
      exact beq_iff_eq.mp this.1
    · exact absurd h (by simp)

/-- C2 amended witness: the Start Work action is rejected on the in-progress
issue `c1Issue` and on the closed issue `c2Issue`, and the raw operation on
`c2Issue` still transitions. -/
theorem c2_amended_witness :
    startWorkAction (some c1Bob) 5 6 7 c1Issue = none ∧
    startWorkAction (some c1Bob) 5 6 7 c2Issue = none ∧
    (updateIssueStatusOn "Eve" Status.in_progress 5 6 7 c2Issue).status =
      Status.in_progress :=
  ⟨c2_amended.2.1 (some c1Bob) c1Issue 5 6 7 (by decide),
   c2_amended.2.1 (some c1Bob) c2Issue 5 6 7 (by decide),
   (c2_amended.1 c2Issue "Eve" 5 6 7).1⟩

/-- C1 counterexample: the Technician `c1Bob` is not the assignee of the
in-progress issue `c1Issue` (the start permission check refuses them), yet
the Mark Complete action is offered to them and closing succeeds — Close is
not permission-gated in the source. -/
theorem c1_counterexample :
    canStartWork (some c1Bob) c1Issue = false ∧
    closeOffered c1Issue = true ∧
    closeAction (some c1Bob) 5 6 7 c1Issue =
      some (updateIssueStatusOn "Bob" Status.closed 5 6 7 c1Issue) ∧
    (updateIssueStatusOn "Bob" Status.closed 5 6 7 c1Issue).status =
      Status.closed := by
  refine ⟨rfl, rfl, rfl, rfl⟩

/-- C1 amended: Operations Management always passes the start permission
check; every role other than Operations Management and Technicians fails it;
a Technician who is not the current assignee fails it; but Close carries no
permission check at all — the Mark Complete action is offered on every
in-progress issue regardless of the actor. -/
theorem c1_amended :
    (∀ (c a : Option String),
      canStartWorkPure "Operations Management" c a = true) ∧
    (∀ r ∈ rolesList, r ≠ "Operations Management" → r ≠ "Technicians" →
      ∀ (c a : Option String), canStartWorkPure r c a = false) ∧
    (∀ (u : LocalUser) (i : Issue), u.role = "Technicians" →
      i.assignedTechnician.map Technician.name ≠ some u.name →
      canStartWork (some u) i = false) ∧
    (∀ i : Issue, i.status = Status.in_progress → closeOffered i = true) := by
  refine ⟨?_, ?_, ?_, ?_⟩
  · intro c a
    rfl
  · intro r hr h1 h2 c a
    fin_cases hr
    · exact absurd rfl h1
    all_goals first
      | exact absurd rfl h2
      | rfl
  · intro u i h1 h2
    simp only [canStartWork, h1]
    simpa [beq_eq_false_iff_ne] using h2
  · intro i h
    simp [closeOffered, h]

/-- C1 amended witness: the permission checks evaluated at concrete
inputs. -/
theorem c1_amended_witness :
    canStartWorkPure "Kitchen team" (some "Ann") (some "Ann") = false ∧
    canStartWork (some c1Bob) c1Issue = false ∧
    closeOffered c1Issue = true :=
  ⟨c1_amended.2.1 "Kitchen team" (by decide) (by decide) (by decide)
      (some "Ann") (some "Ann"),
   c1_amended.2.2.1 c1Bob c1Issue rfl (by decide),
   c1_amended.2.2.2 c1Issue rfl⟩

/-- C5 counterexample: creating the issue "Broken AC" for department
Facilities with no assignee supplied auto-assigns the default technician of
the department, so the issue has a non-null assignee and its log has two
entries, created followed by assigned — not a single created entry. -/
theorem c5_counterexample :
    (handleSubmitIssue c5Form (some c5John) 0 100 200).map Issue.assignedTechnician =
      some (some ⟨1, "Mike Johnson", "Facilities"⟩) ∧
    (handleSubmitIssue c5Form (some c5John) 0 100 200).map
        (fun i => i.activityLog.map ActivityEntry.action) =
      some [Action.created, Action.assigned] := by
  refine ⟨rfl, rfl⟩

/-- C5 amended: creating an issue with no assignee supplied yields
status=open, both timestamps unset, assignee equal to the department's
default technician (null exactly when the department has none), and a log
of a created entry followed by an assigned entry exactly when a default
technician exists; with no default technician the log is exactly the one
created entry. -/
theorem c5_amended :
    ∀ (form : NewIssueForm) (u : LocalUser) (len t tNow : Nat) (i : Issue),
      form.assignedTechId = none →
      handleSubmitIssue form (some u) len t tNow = some i →
      i.status = Status.open_ ∧ i.startedAt = none ∧ i.resolvedAt = none ∧
      i.assignedTechnician = autoAssignTechnician form.department ∧
      i.activityLog =
        mkEntry t u.name Action.created "Issue created" ::
        (match autoAssignTechnician form.department with
         | some tech =>
           [mkEntry t u.name Action.assigned ("Initial assignee: " ++ tech.name)]
         | none => []) ∧
      (autoAssignTechnician form.department = none →
        i.activityLog = [mkEntry t u.name Action.created "Issue created"]) := by
  intro form u len t tNow i hA hEq
  simp only [handleSubmitIssue, hA] at hEq
  split at hEq
  · exact absurd hEq (by simp)
  · rw [Option.some.injEq] at hEq
    subst hEq
    refine ⟨rfl, rfl, rfl, rfl, rfl, ?_⟩
    intro hAuto
    simp [hAuto]

/-- C5 amended witness: submitting `c5wForm` (department with no default
technician, no assignee supplied) yields `c5wIssue`, which is open,
unstarted, unassigned, with a single created entry. -/
theorem c5_amended_witness :
    c5wIssue.status = Status.open_ ∧ c5wIssue.startedAt = none ∧
    c5wIssue.assignedTechnician = none ∧
    c5wIssue.activityLog = [mkEntry 100 "John Doe" Action.created "Issue created"] := by
  have h := c5_amended c5wForm c5John 0 100 200 c5wIssue rfl rfl
  exact ⟨h.1, h.2.1, by rw [h.2.2.2.1]; rfl, h.2.2.2.2.2 rfl⟩

/-- C6 counterexample: the source reads the clock once per timestamp it
produces (three reads for a close with auto-start), not once per invocation.
With reads returning 5, 7 and 9, closing the never-started issue `c6Issue`
sets `startedAt` and `resolvedAt` to different instants and appends three
entries carrying three different timestamps. -/
theorem c6_counterexample :
    (updateIssueStatusOn "Eve" Status.closed 5 7 9 c6Issue).startedAt = some 5 ∧
    (updateIssueStatusOn "Eve" Status.closed 5 7 9 c6Issue).resolvedAt = some 7 ∧
    (updateIssueStatusOn "Eve" Status.closed 5 7 9 c6Issue).startedAt ≠
      (updateIssueStatusOn "Eve" Status.closed 5 7 9 c6Issue).resolvedAt ∧
    ((updateIssueStatusOn "Eve" Status.closed 5 7 9 c6Issue).activityLog.drop
        c6Issue.activityLog.length).map ActivityEntry.at' = [5, 7, 9] := by
  refine ⟨rfl, rfl, by decide, rfl⟩

/-- C6 amended: each invocation reads the clock separately for each
timestamp it produces, with the reads in program order, so the entries
appended by one invocation carry nondecreasing (not necessarily equal)
timestamps; creation does reuse its single read for both of its entries;
Close on a never-started issue sets `startedAt` from the first read and
`resolvedAt` from the second, so `startedAt ≤ resolvedAt`, and when the
reads coincide the two are equal and the displayed duration is "0m". -/
theorem c6_amended :
    (∀ (form : NewIssueForm) (u : Option LocalUser) (len t tNow : Nat) (i : Issue),
      handleSubmitIssue form u len t tNow = some i →
      ∀ e ∈ i.activityLog, e.at' = t) ∧
    (∀ (i : Issue) (actor : String) (t1 t2 t3 : Nat),
      i.startedAt = none → t1 ≤ t2 → t2 ≤ t3 →
      (updateIssueStatusOn actor Status.closed t1 t2 t3 i).startedAt = some t1 ∧
      (updateIssueStatusOn actor Status.closed t1 t2 t3 i).resolvedAt = some t2 ∧
      ((updateIssueStatusOn actor Status.closed t1 t2 t3 i).activityLog.drop
          i.activityLog.length).map ActivityEntry.at' = [t1, t2, t3] ∧
      List.Chain' (fun a b => a ≤ b)
        (((updateIssueStatusOn actor Status.closed t1 t2 t3 i).activityLog.drop
          i.activityLog.length).map ActivityEntry.at') ∧
      (t1 = t2 → formatDuration ((t2 : Int) - (t1 : Int)) = "0m")) := by
  constructor
  · intro form u len t tNow i hEq e he
    cases u with
    | none => exact absurd hEq (by simp [handleSubmitIssue])
    | some user =>
      simp only [handleSubmitIssue] at hEq
      split at hEq
      · exact absurd hEq (by simp)
      · rw [Option.some.injEq] at hEq
        subst hEq
        rcases List.mem_cons.mp he with rfl | he'
        · rfl
        · split at he'
          · rcases List.mem_singleton.mp he' with rfl
            rfl
          · exact absurd he' (by simp)
  · intro i actor t1 t2 t3 hs h12 h23
    refine ⟨?_, ?_, ?_, ?_, ?_⟩
    · simp [updateIssueStatusOn, hs]
    · simp [updateIssueStatusOn, hs]
    · simp [updateIssueStatusOn, hs, mkEntry, List.drop_left]
    · simp only [updateIssueStatusOn, hs, mkEntry]
      rw [List.drop_left]
      simp [List.chain'_cons, h12, h23]
    · intro h
      subst h
      have : ((t1 : Int) - (t1 : Int)) = 0 := by omega
      rw [this]
      rfl

/-- C6 amended witness: the two parts evaluated at concrete inputs. -/
theorem c6_amended_witness :
    c5wIssue.activityLog.map ActivityEntry.at' = [100] ∧
    (updateIssueStatusOn "Ops" Status.closed 40 40 40 c6Issue).startedAt = some 40 ∧
    (updateIssueStatusOn "Ops" Status.closed 40 40 40 c6Issue).resolvedAt = some 40 ∧
    formatDuration ((40 : Int) - (40 : Int)) = "0m" := by
  have h1 := c6_amended.1 c5wForm (some c5John) 0 100 200 c5wIssue rfl
  have h2 := c6_amended.2 c6Issue "Ops" 40 40 40 rfl (le_refl 40) (le_refl 40)
  refine ⟨?_, h2.1, h2.2.1, h2.2.2.2.2 rfl⟩
  rw [show c5wIssue.activityLog =
        [mkEntry 100 "John Doe" Action.created "Issue created"] from rfl]
  simp only [List.map]
  rw [h1 (mkEntry 100 "John Doe" Action.created "Issue created") (by decide)]

/-- C9: on an activity list retrieved newest-first, the summary window keeps
exactly the three most recent entries (all of them when fewer than three),
re-ordered to chronological order: its length is `min 3 n`, it equals the
whole reversed list when the list is short, it equals the last three of the
chronological (reversed) list, it is sorted oldest-first whenever the input
was sorted newest-first, re-windowing it is a no-op, and the full list —
including the entries absent from the summary — is untouched. -/
theorem c9_summary_window :
    ∀ acts : List ActivityEntry,
      (summaryWindow acts).length = min 3 acts.length ∧
      (acts.length ≤ 3 → summaryWindow acts = acts.reverse) ∧
      summaryWindow acts = acts.reverse.drop (acts.length - 3) ∧
      (List.Pairwise (fun a b => b.at' ≤ a.at') acts →
        List.Pairwise (fun a b => a.at' ≤ b.at') (summaryWindow acts)) ∧
      (summaryWindow acts).drop ((summaryWindow acts).length - 3) =
        summaryWindow acts ∧
      acts.take 3 ++ acts.drop 3 = acts := by
  intro acts
  refine ⟨?_, ?_, ?_, ?_, ?_, ?_⟩
  · simp [summaryWindow]
  · intro h
    rw [summaryWindow, List.take_of_length_le h]
  · rw [summaryWindow, List.reverse_take]
  · intro h
    rw [summaryWindow, List.pairwise_reverse]
    exact List.Pairwise.sublist (List.take_sublist 3 acts) h
  · have h0 : (summaryWindow acts).length - 3 = 0 := by
      simp [summaryWindow]
    rw [h0, List.drop_zero]
  · exact List.take_append_drop 3 acts

/-- C9 witness: the short-list and sortedness parts evaluated at concrete
newest-first lists. -/
theorem c9_summary_window_witness :
    summaryWindow c9Acts2 = c9Acts2.reverse ∧
    List.Pairwise (fun a b => a.at' ≤ b.at') (summaryWindow c9Acts5) :=
  ⟨(c9_summary_window c9Acts2).2.1 (by decide),
   (c9_summary_window c9Acts5).2.2.2.1 (by decide)⟩

/-- No character of the ECMAScript whitespace class, and no dash, is a
decimal digit: stripping them leaves the digit test unchanged. -/
theorem filter_digit_strip (l : List Char) :
    ∀ c ∈ l, (c.isDigit && !(jsWhitespace c || c = '-')) = c.isDigit := by
  intro c _
  cases hd : c.isDigit with
  | false => simp [hd]
  | true =>
    have hws : jsWhitespace c = false := by
      cases hb : jsWhitespace c with
      | false => rfl
      | true =>
        exfalso
        have hmem : c ∈ jsWhitespaceChars := List.elem_iff.mp hb
        have hall : ∀ w ∈ jsWhitespaceChars, w.isDigit = false := by decide
        rw [hall c hmem] at hd
        exact Bool.noConfusion hd
    have hdash : c ≠ '-' := by
      intro he
      rw [he] at hd
      exact absurd hd (by decide)
    simp [hd, hws, hdash]

/-- Stripping whitespace and dashes does not change the digit subsequence. -/
theorem digitsOf_stripWsDash (l : List Char) :
    digitsOf (stripWsDash l) = digitsOf l := by
  unfold digitsOf stripWsDash
  rw [List.filter_filter]
  exact List.filter_congr (filter_digit_strip l)

/-- A list of digits is its own digit subsequence. -/
theorem digitsOf_all_digits (l : List Char)
    (h : l.all (fun c => c.isDigit) = true) : digitsOf l = l :=
  List.filter_eq_self.mpr (List.all_eq_true.mp h)

/-- The digit subsequence of `974` followed by digits. -/
theorem digitsOf_974 (ds : List Char)
    (h : ds.all (fun c => c.isDigit) = true) :
    digitsOf ('9' :: '7' :: '4' :: ds) = '9' :: '7' :: '4' :: ds := by
  apply digitsOf_all_digits
  simp [List.all_cons, h]

/-- A leading plus is dropped by the digit subsequence. -/
theorem digitsOf_plus (l : List Char) :
    digitsOf ('+' :: l) = digitsOf l := by
  unfold digitsOf
  rw [List.filter_cons]
  simp

/-- Eliminating a successful `core974` match. -/
theorem core974_elim {l : List Char} (h : core974 l = true) :
    l = '9' :: '7' :: '4' :: l.drop 3 ∧ (l.drop 3).length = 8 ∧
      (l.drop 3).all (fun c => c.isDigit) = true := by
  unfold core974 qatar8 at h
  rcases (Bool.and_eq_true _ _).mp h with ⟨h1, h2⟩
  rcases (Bool.and_eq_true _ _).mp h2 with ⟨h3, h4⟩
  have ht : l.take 3 = ['9', '7', '4'] := beq_iff_eq.mp h1
  refine ⟨?_, beq_iff_eq.mp h3, h4⟩
  conv_lhs => rw [← List.take_append_drop 3 l]
  rw [ht]
  rfl

/-- Eliminating a successful `plus974` match. -/
theorem plus974_elim {l : List Char} (h : plus974 l = true) :
    ∃ ds : List Char,
      (l = '+' :: '9' :: '7' :: '4' :: ds ∨ l = '9' :: '7' :: '4' :: ds) ∧
      ds.length = 8 ∧ ds.all (fun c => c.isDigit) = true := by
  unfold plus974 at h
  split at h
  · rename_i htake
    have ht1 : l.take 1 = ['+'] := beq_iff_eq.mp htake
    have hl : l = '+' :: l.drop 1 := by
      conv_lhs => rw [← List.take_append_drop 1 l]
      rw [ht1]
      rfl
    obtain ⟨he, h8, hd⟩ := core974_elim h
    exact ⟨(l.drop 1).drop 3,
      Or.inl (hl.trans (congrArg (List.cons '+') he)), h8, hd⟩
  · obtain ⟨he, h8, hd⟩ := core974_elim h
    exact ⟨l.drop 3, Or.inr he, h8, hd⟩

/-- Normalization when the digit subsequence is `974` plus eight digits:
the first branch of the source fires. -/
theorem normalize_branch_974 (raw : String) (ds : List Char)
    (hd : digitsOf raw.toList = '9' :: '7' :: '4' :: ds) (h8 : ds.length = 8) :
    normalizeQatarMobile raw = String.mk ('+' :: '9' :: '7' :: '4' :: ds) := by
  unfold normalizeQatarMobile
  rw [hd, if_pos]
  constructor
  · rfl
  · simp [h8]

/-- Normalization when the digit subsequence is eight bare digits: the
second branch of the source fires. -/
theorem normalize_branch_8 (raw : String) (ds : List Char)
    (hd : digitsOf raw.toList = ds) (h8 : ds.length = 8) :
    normalizeQatarMobile raw = String.mk ('+' :: '9' :: '7' :: '4' :: ds) := by
  unfold normalizeQatarMobile
  rw [hd, if_neg, if_pos h8]
  intro hc
  rw [h8] at hc
  exact absurd hc.2 (by omega)

/-- C10: every input accepted by `isQatarMobile` normalizes to a plus sign,
`974` and exactly eight digits, and normalization is idempotent on accepted
inputs. -/
theorem c10_phone :
    ∀ raw : String, isQatarMobile raw = true →
      (∃ ds : List Char,
        normalizeQatarMobile raw = String.mk ('+' :: '9' :: '7' :: '4' :: ds) ∧
        ds.length = 8 ∧ ds.all (fun c => c.isDigit) = true) ∧
      normalizeQatarMobile (normalizeQatarMobile raw) = normalizeQatarMobile raw := by
  intro raw h
  have key : ∃ ds : List Char,
      normalizeQatarMobile raw = String.mk ('+' :: '9' :: '7' :: '4' :: ds) ∧
      ds.length = 8 ∧ ds.all (fun c => c.isDigit) = true := by
    unfold isQatarMobile at h
    rcases (Bool.or_eq_true _ _).mp h with h | h
    · obtain ⟨ds, hshape, h8, hd⟩ := plus974_elim h
      refine ⟨ds, ?_, h8, hd⟩
      have hdig : digitsOf raw.toList = '9' :: '7' :: '4' :: ds := by
        rw [← digitsOf_stripWsDash raw.toList]
        rcases hshape with hs | hs
        · rw [hs, digitsOf_plus, digitsOf_974 ds hd]
        · rw [hs, digitsOf_974 ds hd]
      exact normalize_branch_974 raw ds hdig h8
    · unfold qatar8 at h
      rcases (Bool.and_eq_true _ _).mp h with ⟨h1, h2⟩
      have h8 : (stripWsDash raw.toList).length = 8 := beq_iff_eq.mp h1
      refine ⟨stripWsDash raw.toList, ?_, h8, h2⟩
      have hdig : digitsOf raw.toList = stripWsDash raw.toList := by
        rw [← digitsOf_stripWsDash raw.toList]
        exact digitsOf_all_digits _ h2
      exact normalize_branch_8 raw _ hdig h8
  obtain ⟨ds, heq, h8, hd⟩ := key
  refine ⟨⟨ds, heq, h8, hd⟩, ?_⟩
  rw [heq]
  apply normalize_branch_974
  · show digitsOf ('+' :: '9' :: '7' :: '4' :: ds) = '9' :: '7' :: '4' :: ds
    rw [digitsOf_plus, digitsOf_974 ds hd]
  · exact h8

/-- C10 witness: the accepted inputs "+974 5555-5555" and two digit groups
separated by an en-quad (U+2000) both normalize to a plus, 974 and eight
digits, with normalization fixing the outputs. -/
theorem c10_phone_witness :
    ((∃ ds : List Char,
      normalizeQatarMobile "+974 5555-5555" =
        String.mk ('+' :: '9' :: '7' :: '4' :: ds) ∧
      ds.length = 8 ∧ ds.all (fun c => c.isDigit) = true) ∧
    normalizeQatarMobile (normalizeQatarMobile "+974 5555-5555") =
      normalizeQatarMobile "+974 5555-5555") ∧
    ((∃ ds : List Char,
      normalizeQatarMobile ("5555" ++ String.mk [Char.ofNat 0x2000] ++ "5555") =
        String.mk ('+' :: '9' :: '7' :: '4' :: ds) ∧
      ds.length = 8 ∧ ds.all (fun c => c.isDigit) = true) ∧
    normalizeQatarMobile
        (normalizeQatarMobile ("5555" ++ String.mk [Char.ofNat 0x2000] ++ "5555")) =
      normalizeQatarMobile ("5555" ++ String.mk [Char.ofNat 0x2000] ++ "5555")) :=
  ⟨c10_phone "+974 5555-5555" (by decide),
   c10_phone ("5555" ++ String.mk [Char.ofNat 0x2000] ++ "5555") (by decide)⟩

/-- `updateIssueStatus` always installs the requested status. -/
theorem upd_status (actor : String) (ns : Status) (t1 t2 t3 : Nat) (i : Issue) :
    (updateIssueStatusOn actor ns t1 t2 t3 i).status = ns := by
  cases ns <;> cases h : i.startedAt <;> simp [updateIssueStatusOn, h]

/-- Field effects of a start transition on a never-started issue. -/
theorem upd_inprogress_none (actor : String) (t1 t2 t3 : Nat) (i : Issue)
    (h : i.startedAt = none) :
    (updateIssueStatusOn actor Status.in_progress t1 t2 t3 i).startedAt = some t1 ∧
    (updateIssueStatusOn actor Status.in_progress t1 t2 t3 i).resolvedAt =
      i.resolvedAt := by
  simp [updateIssueStatusOn, h]

/-- Field effects of a close transition on an already-started issue. -/
theorem upd_closed_some (actor : String) (t1 t2 t3 s : Nat) (i : Issue)
    (h : i.startedAt = some s) :
    (updateIssueStatusOn actor Status.closed t1 t2 t3 i).startedAt = some s ∧
    (updateIssueStatusOn actor Status.closed t1 t2 t3 i).resolvedAt = some t2 := by
  simp [updateIssueStatusOn, h]

/-- Every state reachable through the engine satisfies the timed lifecycle
invariant. -/
theorem engineReach_inv : ∀ p : Issue × Nat, EngineReach p → TimedInv p.1 p.2 := by
  intro p h
  induction h with
  | created form u len t tNow i hEq =>
    cases u with
    | none => exact absurd hEq (by simp [handleSubmitIssue])
    | some user =>
      simp only [handleSubmitIssue] at hEq
      split at hEq
      · exact absurd hEq (by simp)
      · rw [Option.some.injEq] at hEq
        subst hEq
        exact ⟨fun _ => ⟨rfl, rfl⟩, fun hc => Status.noConfusion hc,
          fun hc => Status.noConfusion hc⟩
  | step s s' hr hs ih =>
    cases hs with
    | assign u techId i r t t' htt hact =>
      unfold assignAction at hact
      split at hact
      · rw [Option.some.injEq] at hact
        subst hact
        obtain ⟨h1, h2, h3⟩ := ih
        refine ⟨fun h0 => h1 h0, fun h0 => ?_, fun h0 => ?_⟩
        · obtain ⟨⟨s₀, hs₀, hle⟩, hres⟩ := h2 h0
          exact ⟨⟨s₀, hs₀, hle.trans htt⟩, hres⟩
        · obtain ⟨s₀, r₀, ha, hb, hc, hd⟩ := h3 h0
          exact ⟨s₀, r₀, ha, hb, hc, hd.trans htt⟩
      · exact absurd hact (by simp)
    | start u i r t t1 t2 t3 h01 h12 h23 hact =>
      unfold startWorkAction at hact
      split at hact
      · rename_i hoff
        have hopen : i.status = Status.open_ := by
          unfold startWorkOffered at hoff
          exact beq_iff_eq.mp ((Bool.and_eq_true _ _).mp hoff).1
        rw [Option.some.injEq] at hact
        subst hact
        have hstart : i.startedAt = none := (ih.1 hopen).1
        have hres : i.resolvedAt = none := (ih.1 hopen).2
        obtain ⟨hfs, hfr⟩ :=
          upd_inprogress_none (actorName u) t1 t2 t3 i hstart
        refine ⟨fun h0 => ?_, fun _ => ?_, fun h0 => ?_⟩
        · rw [upd_status] at h0
          exact absurd h0 (by decide)
        · exact ⟨⟨t1, hfs, h12.trans h23⟩, hfr.trans hres⟩
        · rw [upd_status] at h0
          exact absurd h0 (by decide)
      · exact absurd hact (by simp)
    | close u i r t t1 t2 t3 h01 h12 h23 hact =>
      unfold closeAction at hact
      split at hact
      · rename_i hoff
        have hprog : i.status = Status.in_progress := by
          unfold closeOffered at hoff
          exact beq_iff_eq.mp hoff
        rw [Option.some.injEq] at hact
        subst hact
        obtain ⟨⟨s₀, hs₀, hsle⟩, _⟩ := ih.2.1 hprog
        obtain ⟨hfs, hfr⟩ := upd_closed_some (actorName u) t1 t2 t3 s₀ i hs₀
        refine ⟨fun h0 => ?_, fun h0 => ?_, fun _ => ?_⟩
        · rw [upd_status] at h0
          exact absurd h0 (by decide)
        · rw [upd_status] at h0
          exact absurd h0 (by decide)
        · exact ⟨s₀, t2, hfs, hfr, (hsle.trans h01).trans h12, h23⟩
      · exact absurd hact (by simp)

/-- C3: every issue reachable from a freshly created issue through engine
operations satisfies: closed exactly when both timestamps are set with the
resolution no earlier than the start; open implies both timestamps unset;
and no engine step ever moves the status backwards in the order
open → in_progress → closed. -/
theorem c3_lifecycle_invariant :
    (∀ (i : Issue) (t : Nat), EngineReach (i, t) →
      (i.status = Status.closed ↔
        ∃ s r, i.startedAt = some s ∧ i.resolvedAt = some r ∧ s ≤ r) ∧
      (i.status = Status.open_ → i.startedAt = none ∧ i.resolvedAt = none)) ∧
    (∀ (i : Issue) (t : Nat) (i' : Issue) (t' : Nat),
      EngineStep (i, t) (i', t') →
      statusRank i.status ≤ statusRank i'.status) := by
  constructor
  · intro i t h
    obtain ⟨h1, h2, h3⟩ := engineReach_inv (i, t) h
    refine ⟨⟨fun hc => ?_, fun hw => ?_⟩, h1⟩
    · obtain ⟨s, r, ha, hb, hc', _⟩ := h3 hc
      exact ⟨s, r, ha, hb, hc'⟩
    · obtain ⟨s, r, ha, hb, _⟩ := hw
      cases hst : i.status with
      | open_ =>
        obtain ⟨hn, _⟩ := h1 hst
        rw [hn] at ha
        exact absurd ha (by simp)
      | in_progress =>
        obtain ⟨_, hn⟩ := h2 hst
        rw [hn] at hb
        exact absurd hb (by simp)
      | closed => rfl
  · intro i t i' t' hs
    cases hs with
    | assign u techId i r t t'' htt hact =>
      unfold assignAction at hact
      split at hact
      · rw [Option.some.injEq] at hact
        subst hact
        exact Nat.le_refl _
      · exact absurd hact (by simp)
    | start u i r t t1 t2 t3 h01 h12 h23 hact =>
      unfold startWorkAction at hact
      split at hact
      · rename_i hoff
        have hopen : i.status = Status.open_ := by
          unfold startWorkOffered at hoff
          exact beq_iff_eq.mp ((Bool.and_eq_true _ _).mp hoff).1
        rw [Option.some.injEq] at hact
        subst hact
        rw [hopen, upd_status]
        decide
      · exact absurd hact (by simp)
    | close u i r t t1 t2 t3 h01 h12 h23 hact =>
      unfold closeAction at hact
      split at hact
      · rename_i hoff
        have hprog : i.status = Status.in_progress := by
          unfold closeOffered at hoff
          exact beq_iff_eq.mp hoff
        rw [Option.some.injEq] at hact
        subst hact
        rw [hprog, upd_status]
        decide
      · exact absurd hact (by simp)

/-- C3 witness: the invariant evaluated on the concrete freshly created
issue `c5wIssue`, and the status monotonicity evaluated on a concrete
assignment step from it. -/
theorem c3_lifecycle_invariant_witness :
    ((c5wIssue.status = Status.closed ↔
        ∃ s r, c5wIssue.startedAt = some s ∧ c5wIssue.resolvedAt = some r ∧ s ≤ r) ∧
      (c5wIssue.status = Status.open_ →
        c5wIssue.startedAt = none ∧ c5wIssue.resolvedAt = none)) ∧
    statusRank c5wIssue.status ≤
      statusRank (assignIssueOn "Ops" (some 2) 150 c5wIssue).status := by
  constructor
  · exact c3_lifecycle_invariant.1 c5wIssue 100
      (EngineReach.created c5wForm (some c5John) 0 100 200 c5wIssue rfl)
  · exact c3_lifecycle_invariant.2 c5wIssue 100
      (assignIssueOn "Ops" (some 2) 150 c5wIssue) 150
      (EngineStep.assign (some c3Ops) (some 2) c5wIssue
        (assignIssueOn "Ops" (some 2) 150 c5wIssue) 100 150 (by omega) rfl)

end FacilityFlow
